import Mathlib

/-!
Verification of the event/alert arbitration engine of
`selfdrive/controls/lib/events.py`.

The Python module is embedded shallowly:

* `ET` — the eight event-type strings of `class ET` (lines 26-34).
* `Priority` — the six-level `IntEnum` (lines 17-23), with `Priority.toNat`
  giving the underlying integer values.
* `Alert` — the value of an `Alert` object (lines 101-139).  The float-valued
  fields are modelled as exact rationals.  The cereal enum fields
  (`alert_status`, `alert_size`, `visual_alert`, `audible_alert`) are opaque
  to the engine and modelled as `Nat`.
* `AlertSpec` — a registry entry: either a concrete `Alert` or a callback
  (`Union[Alert, Callable[..., Alert]]` in the source).  The callback argument
  tuple is modelled by a type parameter `C`.
* `Registry` — the shape of the module-level `EVENTS` table: the engine only
  reads it, so every engine operation takes it as a parameter.  A Python
  `KeyError` on a missing key is modelled by `Option`.
* `Events` — the stateful engine (lines 40-99).  The Python dict
  `events_prev` always has exactly `EVENTS.keys()` as its key set (it is
  seeded from it at line 44 and the comprehension at line 59 preserves the
  key set); it is modelled as a total function `Nat → Nat` whose values at
  ids outside the registry are never read by the engine.
* `DT_CTRL` (imported from `common.realtime`, outside this repository's
  sources) and the reverse name table `EVENT_NAME` (built from the cereal
  schema, line 37) are modelled as parameters `dt : ℚ` and
  `nm : Nat → String`.

`Events.create_alerts` (lines 68-85) mutates, in place, the `Alert` objects
it fetches from the registry (`alert.alert_type = ...`, `alert.event_type = et`
at lines 82-83 act on the object stored in `EVENTS[e][et]` when the entry is a
concrete `Alert`).  To make this heap effect expressible the embedding threads
the registry through the call and returns the post-call registry next to the
alert list; a `none` result is the `KeyError` raised by `EVENTS[e]` at line 74
when `e` has no registry entry.
-/

/-- Event types, from `class ET` (events.py lines 26-34). -/
inductive ET where
  | enable
  | preEnable
  | noEntry
  | warning
  | userDisable
  | softDisable
  | immediateDisable
  | permanent
  deriving DecidableEq

/-- The string value of each event type, as in `class ET`. -/
def ET.str : ET → String
  | .enable => "enable"
  | .preEnable => "preEnable"
  | .noEntry => "noEntry"
  | .warning => "warning"
  | .userDisable => "userDisable"
  | .softDisable => "softDisable"
  | .immediateDisable => "immediateDisable"
  | .permanent => "permanent"

/-- Alert priorities, from `class Priority(IntEnum)` (events.py lines 17-23). -/
inductive Priority where
  | LOWEST
  | LOWER
  | LOW
  | MID
  | HIGH
  | HIGHEST
  deriving DecidableEq

/-- The integer value of each priority, as assigned in the IntEnum. -/
def Priority.toNat : Priority → Nat
  | .LOWEST => 0
  | .LOWER => 1
  | .LOW => 2
  | .MID => 3
  | .HIGH => 4
  | .HIGHEST => 5

/-- The strict order on priorities induced by their integer values;
Python compares IntEnum members by those values. -/
def Priority.lt (p q : Priority) : Prop := p.toNat < q.toNat

instance (p q : Priority) : Decidable (Priority.lt p q) :=
  inferInstanceAs (Decidable (p.toNat < q.toNat))

/-- The value of an `Alert` object (events.py lines 101-133).  `start_time`,
`alert_type` and `event_type` are the three fields `__init__` does not take
from its parameters (lines 131-133). -/
structure Alert where
  alert_text_1 : String
  alert_text_2 : String
  alert_status : Nat
  alert_size : Nat
  alert_priority : Priority
  visual_alert : Nat
  audible_alert : Nat
  duration_sound : ℚ
  duration_hud_alert : ℚ
  duration_text : ℚ
  alert_rate : ℚ
  creation_delay : ℚ
  start_time : ℚ
  alert_type : String
  event_type : Option ET
  deriving DecidableEq

/-- The `Alert.__init__` constructor (events.py lines 102-133): the last three
fields are always initialised to `0.`, `""` and `None`. -/
def Alert.make (t1 t2 : String) (st sz : Nat) (pr : Priority) (va aa : Nat)
    (ds dh dtx ar cd : ℚ) : Alert :=
  { alert_text_1 := t1
    alert_text_2 := t2
    alert_status := st
    alert_size := sz
    alert_priority := pr
    visual_alert := va
    audible_alert := aa
    duration_sound := ds
    duration_hud_alert := dh
    duration_text := dtx
    alert_rate := ar
    creation_delay := cd
    start_time := 0
    alert_type := ""
    event_type := none }

/-- The result of `Alert.__gt__` (events.py lines 138-139): compares the
priorities' integer values. -/
def Alert.gt (a b : Alert) : Bool :=
  decide (b.alert_priority.toNat < a.alert_priority.toNat)

/-- A registry entry: `Union[Alert, Callable[[...], Alert]]` — a concrete
alert or an alert callback over the callback arguments `C`. -/
inductive AlertSpec (C : Type) where
  | concrete (a : Alert)
  | factory (f : C → Alert)

/-- Resolving a registry entry to an alert: the
`if not isinstance(alert, Alert): alert = alert(*callback_args)` step
(events.py lines 78-79). -/
def AlertSpec.resolve {C : Type} : AlertSpec C → C → Alert
  | .concrete a, _ => a
  | .factory f, c => f c

/-- The shape of the `EVENTS` table (events.py line 229): event id → event
type → alert spec; `none` models a missing key. -/
abbrev Registry (C : Type) := Nat → Option (ET → Option (AlertSpec C))

/-- The stamping of an emitted alert (events.py lines 82-83). -/
def Alert.stamped (a : Alert) (tag : String) (et : ET) : Alert :=
  { a with alert_type := tag, event_type := some et }

/-- One wire entry of `car.CarEvent`: an event name and one boolean flag per
event type (all flags default to false in a new message). -/
structure CarEvent where
  name : Nat
  flags : ET → Bool

/-- The engine state (events.py lines 41-44): the active event list, the
static event list and the persistence counter map. -/
structure Events where
  events : List Nat
  static_events : List Nat
  events_prev : Nat → Nat

/-- `Events.__init__` (events.py lines 41-44): empty lists and all counters 0
(`dict.fromkeys(EVENTS.keys(), 0)`). -/
def Events.init : Events :=
  { events := [], static_events := [], events_prev := fun _ => 0 }

/-- `Events.add` (events.py lines 53-56). -/
def Events.add (s : Events) (event_name : Nat) (static : Bool) : Events :=
  { s with
    static_events :=
      if static then s.static_events ++ [event_name] else s.static_events
    events := s.events ++ [event_name] }

/-- `Events.clear` (events.py lines 58-60): bump or reset every counter from
the pre-clear active list, then reset the active list to a copy of the static
list. -/
def Events.clear (s : Events) : Events :=
  { s with
    events_prev := fun k => if k ∈ s.events then s.events_prev k + 1 else 0
    events := s.static_events }

/-- `Events.any` (events.py lines 62-66): `EVENTS.get(e, {})` is the
`Option.getD` of the registry lookup. -/
def Events.any {C : Type} (R : Registry C) (s : Events) (event_type : ET) :
    Bool :=
  s.events.any fun e => (((R e).getD fun _ => none) event_type).isSome

/-- `Events.add_from_msg` (events.py lines 87-89): append the name of every
wire entry to the active list. -/
def Events.add_from_msg (s : Events) (msg : List CarEvent) : Events :=
  { s with events := s.events ++ msg.map CarEvent.name }

/-- `Events.to_msg` (events.py lines 91-99): one entry per active event, with
exactly the type flags of the registry entry set (all false for an id unknown
to the registry, since `EVENTS.get(event_name, {})` yields no keys). -/
def Events.to_msg {C : Type} (R : Registry C) (s : Events) : List CarEvent :=
  s.events.map fun event_name =>
    { name := event_name
      flags := fun t => (((R event_name).getD fun _ => none) t).isSome }

/-- The inner loop of `create_alerts` (events.py lines 75-84) for one active
event `e`: walk the requested event types over the current registry row `m`,
emitting the gated, stamped alerts and writing each stamped concrete alert
back into the row (the in-place mutation of lines 82-83).  `prevE` is
`self.events_prev[e]`. -/
def createAlertsTypes {C : Type} (nm : Nat → String) (dt : ℚ) (cargs : C)
    (prevE : Nat) (e : Nat) :
    List ET → (ET → Option (AlertSpec C)) →
      List Alert × (ET → Option (AlertSpec C))
  | [], m => ([], m)
  | et :: rest, m =>
    match m et with
    | none => createAlertsTypes nm dt cargs prevE e rest m
    | some (.factory f) =>
      let alert := f cargs
      if dt * ((prevE : ℚ) + 1) ≥ alert.creation_delay then
        let a2 := alert.stamped (nm e ++ "/" ++ et.str) et
        let r := createAlertsTypes nm dt cargs prevE e rest m
        (a2 :: r.1, r.2)
      else
        createAlertsTypes nm dt cargs prevE e rest m
    | some (.concrete a) =>
      if dt * ((prevE : ℚ) + 1) ≥ a.creation_delay then
        let a2 := a.stamped (nm e ++ "/" ++ et.str) et
        let m2 : ET → Option (AlertSpec C) :=
          fun t => if t = et then some (.concrete a2) else m t
        let r := createAlertsTypes nm dt cargs prevE e rest m2
        (a2 :: r.1, r.2)
      else
        createAlertsTypes nm dt cargs prevE e rest m

/-- The outer loop of `create_alerts` (events.py lines 73-84): walk the active
events, threading the registry; `EVENTS[e]` on an id with no registry entry
raises `KeyError`, modelled as `none`. -/
def createAlertsEvents {C : Type} (nm : Nat → String) (dt : ℚ) (cargs : C)
    (prev : Nat → Nat) (ets : List ET) :
    List Nat → Registry C → Option (List Alert × Registry C)
  | [], R => some ([], R)
  | e :: rest, R =>
    match R e with
    | none => none
    | some m =>
      let r := createAlertsTypes nm dt cargs (prev e) e ets m
      match createAlertsEvents nm dt cargs prev ets rest
          (fun k => if k = e then some r.2 else R k) with
      | none => none
      | some (l2, R2) => some (r.1 ++ l2, R2)

/-- `Events.create_alerts` (events.py lines 68-85): returns the emitted alert
list and the post-call registry, or `none` for the `KeyError` raised on an
active id unknown to the registry. -/
def Events.create_alerts {C : Type} (nm : Nat → String) (dt : ℚ)
    (R : Registry C) (s : Events) (event_types : List ET) (cargs : C) :
    Option (List Alert × Registry C) :=
  createAlertsEvents nm dt cargs s.events_prev event_types s.events R

/-- One control cycle in which `e` is raised: the host calls `clear()` then
`add(e)` (spec section 2 control flow). -/
def cycle (e : Nat) (s : Events) : Events :=
  Events.add (Events.clear s) e false

/-- An alert with its two engine-stamped fields blanked back to their
constructor values; two alerts with equal `unstamped` images agree on every
field except possibly `alert_type` and `event_type`. -/
def Alert.unstamped (a : Alert) : Alert :=
  { a with alert_type := "", event_type := none }

/-- Two registry entries that differ at most by the stamped fields of a
concrete alert. -/
def specRel {C : Type} : AlertSpec C → AlertSpec C → Prop
  | .concrete a, .concrete b => a.unstamped = b.unstamped
  | .factory f, .factory g => f = g
  | _, _ => False

/-- Two registry rows related pointwise by `specRel`. -/
def mapRel {C : Type} (m0 m : ET → Option (AlertSpec C)) : Prop :=
  ∀ t, (m0 t = none ∧ m t = none) ∨
    ∃ s0 s, m0 t = some s0 ∧ m t = some s ∧ specRel s0 s

/-- Two registries related pointwise by `mapRel`: same id and type structure,
same callbacks, and concrete alerts equal on every field other than the two
stamped ones. -/
def regRel {C : Type} (R0 R : Registry C) : Prop :=
  ∀ e, (R0 e = none ∧ R e = none) ∨
    ∃ m0 m, R0 e = some m0 ∧ R e = some m ∧ mapRel m0 m

/-- The alerts one registry row contributes for one active event, read off a
fixed registry row (the pure description of the inner loop of
`create_alerts`): requested-type order, one alert per matching, gated type. -/
def emitTypes {C : Type} (nm : Nat → String) (dt : ℚ) (cargs : C)
    (prevE : Nat) (e : Nat) (m : ET → Option (AlertSpec C)) :
    List ET → List Alert
  | [] => []
  | et :: rest =>
    match m et with
    | none => emitTypes nm dt cargs prevE e m rest
    | some spec =>
      if dt * ((prevE : ℚ) + 1) ≥ (spec.resolve cargs).creation_delay then
        (spec.resolve cargs).stamped (nm e ++ "/" ++ et.str) et ::
          emitTypes nm dt cargs prevE e m rest
      else
        emitTypes nm dt cargs prevE e m rest

/-- The alerts one active event contributes, read off a fixed registry (the
pure description of one outer-loop step of `create_alerts`). -/
def emitEvent {C : Type} (nm : Nat → String) (dt : ℚ) (cargs : C)
    (prev : Nat → Nat) (ets : List ET) (R : Registry C) (e : Nat) :
    List Alert :=
  match R e with
  | none => []
  | some m => emitTypes nm dt cargs (prev e) e m ets

theorem Alert.unstamped_creation_delay {a b : Alert}
    (h : a.unstamped = b.unstamped) : a.creation_delay = b.creation_delay := by
  have h2 := congrArg Alert.creation_delay h
  simpa [Alert.unstamped] using h2

theorem Alert.unstamped_stamped_eq {a b : Alert} (h : a.unstamped = b.unstamped)
    (tag : String) (et : ET) : a.stamped tag et = b.stamped tag et := by
  cases a; cases b
  simp only [Alert.unstamped, Alert.mk.injEq, and_true] at h
  simp only [Alert.stamped, Alert.mk.injEq, and_self, and_true]
  exact h

theorem Alert.unstamped_stamped (a : Alert) (tag : String) (et : ET) :
    (a.stamped tag et).unstamped = a.unstamped := rfl

theorem specRel_refl {C : Type} (s : AlertSpec C) : specRel s s := by
  cases s <;> simp [specRel]

theorem mapRel_refl {C : Type} (m : ET → Option (AlertSpec C)) : mapRel m m := by
  intro t
  rcases h : m t with _ | s
  · exact Or.inl ⟨rfl, rfl⟩
  · exact Or.inr ⟨s, s, rfl, rfl, specRel_refl s⟩

theorem regRel_refl {C : Type} (R : Registry C) : regRel R R := by
  intro e
  rcases h : R e with _ | m
  · exact Or.inl ⟨rfl, rfl⟩
  · exact Or.inr ⟨m, m, rfl, rfl, mapRel_refl m⟩

theorem mapRel_update {C : Type} {m0 m : ET → Option (AlertSpec C)}
    (h : mapRel m0 m) {et : ET} {a0 a2 : Alert}
    (h0 : m0 et = some (.concrete a0)) (h2 : a0.unstamped = a2.unstamped) :
    mapRel m0 (fun t => if t = et then some (.concrete a2) else m t) := by
  intro t
  by_cases ht : t = et
  · subst ht
    exact Or.inr ⟨.concrete a0, .concrete a2, h0, by simp, h2⟩
  · simpa [ht] using h t

/-- The inner loop computes, in its first component, the pure `emitTypes` of
any row related to the current one, and returns a row still related to it. -/
theorem createAlertsTypes_spec {C : Type} (nm : Nat → String) (dt : ℚ)
    (cargs : C) (prevE : Nat) (e : Nat) (ets : List ET) :
    ∀ m0 m : ET → Option (AlertSpec C), mapRel m0 m →
      (createAlertsTypes nm dt cargs prevE e ets m).1
          = emitTypes nm dt cargs prevE e m0 ets ∧
        mapRel m0 (createAlertsTypes nm dt cargs prevE e ets m).2 := by
  induction ets with
  | nil => intro m0 m h; exact ⟨rfl, h⟩
  | cons et rest ih =>
    intro m0 m h
    rcases h et with ⟨h0, h1⟩ | ⟨s0, s, h0, h1, hrel⟩
    · simp only [createAlertsTypes, emitTypes, h0, h1]
      exact ih m0 m h
    · cases s0 with
      | concrete a0 =>
        cases s with
        | concrete a =>
          have hun : a0.unstamped = a.unstamped := hrel
          have hd : a0.creation_delay = a.creation_delay :=
            Alert.unstamped_creation_delay hun
          simp only [createAlertsTypes, emitTypes, h0, h1, AlertSpec.resolve]
          by_cases hg : dt * ((prevE : ℚ) + 1) ≥ a.creation_delay
          · rw [if_pos hg, if_pos (hd ▸ hg)]
            have hm2 : mapRel m0
                (fun t => if t = et then
                    some (.concrete (a.stamped (nm e ++ "/" ++ et.str) et))
                  else m t) :=
              mapRel_update h h0 (by rw [Alert.unstamped_stamped]; exact hun)
            obtain ⟨ih1, ih2⟩ := ih m0 _ hm2
            refine ⟨?_, ih2⟩
            simp only [ih1, List.cons.injEq, and_true]
            exact (Alert.unstamped_stamped_eq hun _ _).symm
          · rw [if_neg hg, if_neg (by rw [hd]; exact hg)]
            exact ih m0 m h
        | factory g => exact absurd hrel (by simp [specRel])
      | factory f0 =>
        cases s with
        | concrete a => exact absurd hrel (by simp [specRel])
        | factory g =>
          have hf : f0 = g := hrel
          subst hf
          simp only [createAlertsTypes, emitTypes, h0, h1, AlertSpec.resolve]
          by_cases hg : dt * ((prevE : ℚ) + 1) ≥ (f0 cargs).creation_delay
          · rw [if_pos hg, if_pos hg]
            obtain ⟨ih1, ih2⟩ := ih m0 m h
            exact ⟨by simp only [ih1], ih2⟩
          · rw [if_neg hg, if_neg hg]
            exact ih m0 m h

/-- The outer loop on a list of active ids that all have a registry entry:
it succeeds, its alert list is the concatenation, in active order, of the
per-event `emitEvent` lists read off the original registry, and the returned
registry is still `regRel`-related to the original. -/
theorem createAlertsEvents_spec {C : Type} (nm : Nat → String) (dt : ℚ)
    (cargs : C) (prev : Nat → Nat) (ets : List ET) (es : List Nat) :
    ∀ R Rc : Registry C, regRel R Rc → (∀ e ∈ es, (R e).isSome) →
      ∃ l R2, createAlertsEvents nm dt cargs prev ets es Rc = some (l, R2) ∧
        l = es.flatMap (emitEvent nm dt cargs prev ets R) ∧ regRel R R2 := by
  induction es with
  | nil =>
    intro R Rc hrel _
    exact ⟨[], Rc, rfl, rfl, hrel⟩
  | cons e rest ih =>
    intro R Rc hrel hk
    have hke : (R e).isSome := hk e (by simp)
    rcases hrel e with ⟨h0, h1⟩ | ⟨m0, m, h0, h1, hm⟩
    · rw [h0] at hke; simp at hke
    · obtain ⟨hin1, hin2⟩ := createAlertsTypes_spec nm dt cargs (prev e) e ets m0 m hm
      have hrel2 : regRel R
          (fun k => if k = e then
              some (createAlertsTypes nm dt cargs (prev e) e ets m).2
            else Rc k) := by
        intro k
        by_cases hkeq : k = e
        · subst hkeq
          exact Or.inr ⟨m0, _, h0, by simp, hin2⟩
        · simpa [hkeq] using hrel k
      obtain ⟨l2, R2, heq, hl2, hrel3⟩ :=
        ih R _ hrel2 (fun x hx => hk x (List.mem_cons_of_mem e hx))
      refine ⟨(createAlertsTypes nm dt cargs (prev e) e ets m).1 ++ l2, R2, ?_, ?_, hrel3⟩
      · simp only [createAlertsEvents, h1, heq]
      · simp only [List.flatMap_cons, hl2, hin1, emitEvent, h0]

/-- The outer loop, whenever it succeeds, returns a registry that is
`regRel`-related to the original, whatever the active list. -/
theorem createAlertsEvents_mut {C : Type} (nm : Nat → String) (dt : ℚ)
    (cargs : C) (prev : Nat → Nat) (ets : List ET) (es : List Nat) :
    ∀ (R Rc : Registry C) (l : List Alert) (R2 : Registry C), regRel R Rc →
      createAlertsEvents nm dt cargs prev ets es Rc = some (l, R2) →
      regRel R R2 := by
  induction es with
  | nil =>
    intro R Rc l R2 hrel heq
    simp only [createAlertsEvents, Option.some.injEq, Prod.mk.injEq] at heq
    exact heq.2 ▸ hrel
  | cons e rest ih =>
    intro R Rc l R2 hrel heq
    rcases hrel e with ⟨g0, g1⟩ | ⟨m0, m, g0, g1, hm⟩
    · simp only [createAlertsEvents, g1] at heq
      exact Option.noConfusion heq
    · obtain ⟨-, hin2⟩ := createAlertsTypes_spec nm dt cargs (prev e) e ets m0 m hm
      have hrel2 : regRel R
          (fun k => if k = e then
              some (createAlertsTypes nm dt cargs (prev e) e ets m).2
            else Rc k) := by
        intro k
        by_cases hkeq : k = e
        · subst hkeq
          exact Or.inr ⟨m0, _, g0, by simp, hin2⟩
        · simpa [hkeq] using hrel k
      simp only [createAlertsEvents, g1] at heq
      rcases h2 : createAlertsEvents nm dt cargs prev ets rest
          (fun k => if k = e then
              some (createAlertsTypes nm dt cargs (prev e) e ets m).2
            else Rc k) with _ | p
      · rw [h2] at heq
        exact Option.noConfusion heq
      · rw [h2] at heq
        obtain ⟨l3, R3⟩ := p
        simp only [Option.some.injEq, Prod.mk.injEq] at heq
        exact heq.2 ▸ ih R _ l3 R3 hrel2 h2

/-- The concrete alert stored at a registry slot, when there is one. -/
def regAlertAt {C : Type} (R : Registry C) (e : Nat) (t : ET) : Option Alert :=
  match R e with
  | none => none
  | some m =>
    match m t with
    | some (.concrete a) => some a
    | _ => none

/-- A state-mutating engine operation (the three mutators of the `Events`
class; `any`, `create_alerts` and `to_msg` read but never write the `Events`
state in the embedding, by construction). -/
inductive Op where
  | add (e : Nat) (static : Bool)
  | clear
  | add_from_msg (msg : List CarEvent)

/-- Applying one operation to the engine state. -/
def Op.apply (s : Events) : Op → Events
  | .add e static => Events.add s e static
  | .clear => Events.clear s
  | .add_from_msg msg => Events.add_from_msg s msg

/-- Running a sequence of operations. -/
def runOps (s : Events) : List Op → Events
  | [] => s
  | op :: ops => runOps (Op.apply s op) ops

/-- A diagnostic-name table for concrete instances. -/
def sampleName (e : Nat) : String := "ev" ++ toString e

/-- A concrete alert with a given creation delay, for concrete instances. -/
def sampleAlert (cd : ℚ) : Alert :=
  Alert.make "text1" "text2" 0 1 Priority.LOW 0 0 (4/10) 2 3 0 cd

/-- A registry row mapping only the warning type to `sampleAlert cd`. -/
def sampleRow (cd : ℚ) : ET → Option (AlertSpec Unit) :=
  fun t => if t = ET.warning then some (.concrete (sampleAlert cd)) else none

/-- A registry with the single id 0 mapped to `sampleRow cd`. -/
def sampleReg (cd : ℚ) : Registry Unit :=
  fun e => if e = 0 then some (sampleRow cd) else none

/-- A registry where id 0 has a warning entry and id 1 has an entry for no
event type at all. -/
def sampleReg2 : Registry Unit :=
  fun e =>
    if e = 0 then some (sampleRow 0)
    else if e = 1 then some (fun _ => none)
    else none

/-- An engine state with a given active list, empty static list and zero
counters. -/
def sampleState (es : List Nat) : Events :=
  { events := es, static_events := [], events_prev := fun _ => 0 }

/-- The engine state after `n + 1` cycles that each raise `e` on a fresh
engine: active list `[e]`, empty static list, counter `n`. -/
theorem cycle_iterate (e : Nat) (n : Nat) :
    ((cycle e)^[n + 1] Events.init).events = [e] ∧
      ((cycle e)^[n + 1] Events.init).static_events = [] ∧
      ((cycle e)^[n + 1] Events.init).events_prev e = n := by
  induction n with
  | zero =>
    rw [Function.iterate_one]
    refine ⟨rfl, rfl, ?_⟩
    simp [cycle, Events.clear, Events.add, Events.init]
  | succ k ih =>
    obtain ⟨h1, h2, h3⟩ := ih
    rw [Function.iterate_succ_apply']
    refine ⟨?_, ?_, ?_⟩
    · simp only [cycle, Events.add, Events.clear, h2, List.nil_append]
    · simp only [cycle, Events.add, Events.clear, h2, if_neg]
      rfl
    · simp only [cycle, Events.add, Events.clear, h1, h3, List.mem_singleton,
        if_pos]

/-- A registry row with no entry for any requested type contributes no
alert. -/
theorem emitTypes_nil_of_none {C : Type} (nm : Nat → String) (dt : ℚ)
    (cargs : C) (prevE e : Nat) (m : ET → Option (AlertSpec C))
    (ets : List ET) (h : ∀ t ∈ ets, m t = none) :
    emitTypes nm dt cargs prevE e m ets = [] := by
  induction ets with
  | nil => rfl
  | cons et rest ih =>
    simp only [emitTypes, h et (by simp)]
    exact ih fun t ht => h t (List.mem_cons_of_mem et ht)

/-- Every alert contributed by a registry row carries the diagnostic tag and
the event type of the requested type that produced it. -/
theorem emitTypes_mem {C : Type} {nm : Nat → String} {dt : ℚ} {cargs : C}
    {prevE e : Nat} {m : ET → Option (AlertSpec C)} {ets : List ET}
    {a : Alert} (h : a ∈ emitTypes nm dt cargs prevE e m ets) :
    ∃ t ∈ ets, a.alert_type = nm e ++ "/" ++ t.str ∧ a.event_type = some t := by
  induction ets with
  | nil => cases h
  | cons et rest ih =>
    rcases h0 : m et with _ | spec
    · simp only [emitTypes, h0] at h
      obtain ⟨t, ht, hta⟩ := ih h
      exact ⟨t, List.mem_cons_of_mem et ht, hta⟩
    · simp only [emitTypes, h0] at h
      by_cases hg : dt * ((prevE : ℚ) + 1) ≥ (spec.resolve cargs).creation_delay
      · rw [if_pos hg] at h
        rcases List.mem_cons.mp h with heq | hmem
        · exact ⟨et, by simp, by rw [heq]; exact ⟨rfl, rfl⟩⟩
        · obtain ⟨t, ht, hta⟩ := ih hmem
          exact ⟨t, List.mem_cons_of_mem et ht, hta⟩
      · rw [if_neg hg] at h
        obtain ⟨t, ht, hta⟩ := ih h
        exact ⟨t, List.mem_cons_of_mem et ht, hta⟩

/-- Every alert contributed by an active event carries a tag and type from
the requested list. -/
theorem emitEvent_mem {C : Type} {nm : Nat → String} {dt : ℚ} {cargs : C}
    {prev : Nat → Nat} {ets : List ET} {R : Registry C} {e : Nat} {a : Alert}
    (h : a ∈ emitEvent nm dt cargs prev ets R e) :
    ∃ t ∈ ets, a.alert_type = nm e ++ "/" ++ t.str ∧ a.event_type = some t := by
  rcases h0 : R e with _ | m
  · rw [emitEvent, h0] at h
    cases h
  · rw [emitEvent, h0] at h
    exact emitTypes_mem h

/-- Running an appended operation list is running the two lists in turn. -/
theorem runOps_append (l1 l2 : List Op) (s : Events) :
    runOps s (l1 ++ l2) = runOps (runOps s l1) l2 := by
  induction l1 generalizing s with
  | nil => rfl
  | cons op rest ih => exact ih (Op.apply s op)

/-- No engine operation removes an id from the static list. -/
theorem runOps_static_mono (ops : List Op) (s : Events) (e : Nat)
    (h : e ∈ s.static_events) : e ∈ (runOps s ops).static_events := by
  induction ops generalizing s with
  | nil => exact h
  | cons op rest ih =>
    refine ih (Op.apply s op) ?_
    cases op with
    | add x st =>
      cases st
      · simpa [Op.apply, Events.add] using h
      · simp only [Op.apply, Events.add, if_pos]
        exact List.mem_append_left _ h
    | clear => exact h
    | add_from_msg msg => exact h

/-- C1: immediately after `clear()`, the active event sequence equals the
persistent (static) event sequence by value; and the counter update of
`clear()` is computed from the pre-clear active sequence — every counter is
incremented by exactly 1 if its id appears anywhere in the pre-clear active
sequence (regardless of how many times it appears), and is reset to 0
otherwise; at construction every counter is 0.  (The Python counter dict
carries exactly the Registry-known ids as keys; the embedding's total counter
function satisfies the update law at every id, in particular at those.) -/
theorem clear_rolls_counters_and_copies_static (s : Events) :
    (Events.clear s).events = s.static_events ∧
      (∀ k : Nat, (Events.clear s).events_prev k =
        if k ∈ s.events then s.events_prev k + 1 else 0) ∧
      ∀ k : Nat, Events.init.events_prev k = 0 :=
  ⟨rfl, fun _ => rfl, fun _ => rfl⟩

/-- C2: debounce gate.  With event `e` continuously present for `n ≥ 1`
cycles on a fresh engine, a registry entry at `(e, t)` holding a concrete
alert whose creation delay is `D`, and cycle period `P`, the `n`-th cycle's
`create_alerts` over `[t]` emits the stamped alert exactly when
`P * (persistenceCounters[e] + 1) = P * n ≥ D`; in the exact arithmetic of
the embedding the boundary case `P * n = D` does emit. -/
theorem create_alerts_debounce_gate {C : Type} (nm : Nat → String) (P : ℚ)
    (R : Registry C) (cargs : C) (e : Nat) (t : ET)
    (m : ET → Option (AlertSpec C)) (a : Alert) (D : ℚ) (n : Nat)
    (hn : 1 ≤ n) (hR : R e = some m) (hm : m t = some (.concrete a))
    (hD : a.creation_delay = D) :
    (Events.create_alerts nm P R ((cycle e)^[n] Events.init) [t] cargs).map
        Prod.fst
      = some (if P * (n : ℚ) ≥ D then
          [a.stamped (nm e ++ "/" ++ t.str) t] else []) := by
  obtain ⟨k, rfl⟩ : ∃ k, n = k + 1 :=
    ⟨n - 1, (Nat.succ_pred_eq_of_pos hn).symm⟩
  obtain ⟨h1, -, h3⟩ := cycle_iterate e k
  obtain ⟨l, R2, heq, hl, -⟩ :=
    createAlertsEvents_spec nm P cargs
      ((cycle e)^[k + 1] Events.init).events_prev [t]
      ((cycle e)^[k + 1] Events.init).events R R (regRel_refl R)
      (by
        rw [h1]
        intro x hx
        rw [List.mem_singleton] at hx
        subst hx
        rw [hR]
        rfl)
  unfold Events.create_alerts
  rw [heq, hl, h1]
  have hc : ((k + 1 : ℕ) : ℚ) = (k : ℚ) + 1 := by push_cast; ring
  simp only [Option.map_some', List.flatMap_cons, List.flatMap_nil,
    List.append_nil, emitEvent, hR, emitTypes, hm, AlertSpec.resolve, h3,
    hc, hD]

/-- C5: persistence counting over cycles.  If `e` is added on `n ≥ 1`
consecutive cycles of a fresh engine (each `add` preceded by that cycle's
`clear()`), then going into the `n`-th cycle `persistenceCounters[e] = n - 1`
and the elapsed-cycle count `persistenceCounters[e] + 1` computed inside
`create_alerts` equals `n`; and after a full cycle in which `e` is absent
from the active list, the next `clear()` resets `persistenceCounters[e]`
to 0, restarting the delay count. -/
theorem persistence_counter_over_cycles (e : Nat) (n : Nat) (hn : 1 ≤ n) :
    ((cycle e)^[n] Events.init).events_prev e = n - 1 ∧
      ((cycle e)^[n] Events.init).events_prev e + 1 = n ∧
      (Events.clear (Events.clear ((cycle e)^[n] Events.init))).events_prev e
        = 0 := by
  obtain ⟨k, rfl⟩ : ∃ k, n = k + 1 :=
    ⟨n - 1, (Nat.succ_pred_eq_of_pos hn).symm⟩
  obtain ⟨h1, h2, h3⟩ := cycle_iterate e k
  refine ⟨by rw [h3]; rfl, by rw [h3], ?_⟩
  simp only [Events.clear, h1, h2]
  rfl

/-- Witness for C2: a concrete run.  With period 1/100, delay 2/100 and the
event present on both of 2 cycles, the alert fires on the second cycle. -/
theorem create_alerts_debounce_gate_w :
    1 ≤ 2 ∧ sampleReg (2/100) 0 = some (sampleRow (2/100)) ∧
      sampleRow (2/100) ET.warning
        = some (.concrete (sampleAlert (2/100))) ∧
      (sampleAlert (2/100)).creation_delay = 2/100 ∧
      (Events.create_alerts sampleName (1/100) (sampleReg (2/100))
          ((cycle 0)^[2] Events.init) [ET.warning] ()).map Prod.fst
        = some (if (1/100 : ℚ) * ((2 : ℕ) : ℚ) ≥ 2/100 then
            [(sampleAlert (2/100)).stamped
              (sampleName 0 ++ "/" ++ ET.warning.str) ET.warning]
          else []) :=
  ⟨by decide, rfl, rfl, rfl,
    create_alerts_debounce_gate sampleName (1/100) (sampleReg (2/100)) () 0
      ET.warning (sampleRow (2/100)) (sampleAlert (2/100)) (2/100) 2
      (by decide) rfl rfl rfl⟩

/-- Witness for C5: three consecutive cycles raising event 5. -/
theorem persistence_counter_over_cycles_w :
    1 ≤ 3 ∧
      (((cycle 5)^[3] Events.init).events_prev 5 = 3 - 1 ∧
        ((cycle 5)^[3] Events.init).events_prev 5 + 1 = 3 ∧
        (Events.clear (Events.clear ((cycle 5)^[3] Events.init))).events_prev 5
          = 0) :=
  ⟨by decide, persistence_counter_over_cycles 5 3 (by decide)⟩

/-- C3 counterexample: an active EventId with no Registry entry (here id 7,
appended by the wire decoder into an empty log) makes `create_alerts` fail
with a lookup error (`EVENTS[e]` raises `KeyError`) instead of returning
normally. -/
theorem create_alerts_unknown_id_error :
    Events.create_alerts sampleName (1/100)
        (fun _ => (none : Option (ET → Option (AlertSpec Unit))))
        (Events.add_from_msg Events.init [⟨7, fun _ => false⟩])
        [ET.warning] () = none := rfl

/-- C3 amended: when every active EventId has a Registry entry,
`create_alerts` returns normally and its alert list is exactly the
concatenation of the per-event matches; an id whose entry lacks all the
requested types contributes no alert (and no error).  An id with no Registry
entry at all instead raises (see the counterexample). -/
theorem create_alerts_known_ids_no_error {C : Type} (nm : Nat → String)
    (dt : ℚ) (R : Registry C) (s : Events) (ets : List ET) (cargs : C)
    (h : ∀ e ∈ s.events, (R e).isSome) :
    (Events.create_alerts nm dt R s ets cargs).map Prod.fst
        = some (s.events.flatMap (emitEvent nm dt cargs s.events_prev ets R)) ∧
      ∀ e m, R e = some m → (∀ t ∈ ets, m t = none) →
        emitEvent nm dt cargs s.events_prev ets R e = [] := by
  constructor
  · obtain ⟨l, R2, heq, hl, -⟩ :=
      createAlertsEvents_spec nm dt cargs s.events_prev ets s.events R R
        (regRel_refl R) h
    unfold Events.create_alerts
    rw [heq, hl]
    rfl
  · intro e m hRe hnone
    rw [emitEvent, hRe]
    exact emitTypes_nil_of_none nm dt cargs (s.events_prev e) e m ets hnone

/-- Witness for C3: a log whose active ids 0 and 1 are both in the registry,
id 1 with an entry for no event type. -/
theorem create_alerts_known_ids_no_error_w :
    (∀ e ∈ (sampleState [0, 1]).events, (sampleReg2 e).isSome) ∧
      ((Events.create_alerts sampleName (1/100) sampleReg2
            (sampleState [0, 1]) [ET.warning] ()).map Prod.fst
          = some ((sampleState [0, 1]).events.flatMap
              (emitEvent sampleName (1/100) ()
                (sampleState [0, 1]).events_prev [ET.warning] sampleReg2)) ∧
        ∀ e m, sampleReg2 e = some m → (∀ t ∈ [ET.warning], m t = none) →
          emitEvent sampleName (1/100) () (sampleState [0, 1]).events_prev
            [ET.warning] sampleReg2 e = []) :=
  ⟨by decide,
    create_alerts_known_ids_no_error sampleName (1/100) sampleReg2
      (sampleState [0, 1]) [ET.warning] () (by decide)⟩

/-- C4: wire round-trip.  Decoding the encoded active set into an empty log
reproduces the same active sequence in the same order (including ids unknown
to the registry); the encoder emits one entry per active entry, in active
order, carrying exactly the type flags the registry associates with that id
(none for an unknown id). -/
theorem wire_round_trip {C : Type} (R : Registry C) (s : Events) :
    (Events.add_from_msg Events.init (Events.to_msg R s)).events = s.events ∧
      (Events.to_msg R s).map CarEvent.name = s.events ∧
      ∀ t : ET, (Events.to_msg R s).map (fun ev => ev.flags t)
        = s.events.map fun n => (((R n).getD fun _ => none) t).isSome := by
  refine ⟨?_, ?_, fun t => ?_⟩
  · simp only [Events.add_from_msg, Events.init, Events.to_msg, List.map_map,
      List.nil_append]
    exact List.map_id _
  · simp only [Events.to_msg, List.map_map]
    exact List.map_id _
  · simp only [Events.to_msg, List.map_map]
    rfl

/-- C6: `any(eventType)` is true iff some identifier in the active sequence
has a Registry entry for that event type; an identifier with no Registry
entry at all contributes false and raises no error.  The operation reads the
state and registry and is pure by construction. -/
theorem any_event_type_iff {C : Type} (R : Registry C) (s : Events) (t : ET) :
    Events.any R s t = true ↔
      ∃ e, e ∈ s.events ∧ ∃ m, R e = some m ∧ (m t).isSome = true := by
  simp only [Events.any, List.any_eq_true]
  constructor
  · rintro ⟨e, he, hb⟩
    rcases hRe : R e with _ | m
    · rw [hRe] at hb
      simp at hb
    · rw [hRe] at hb
      exact ⟨e, he, m, hRe, by simpa using hb⟩
  · rintro ⟨e, he, m, hRe, hm⟩
    exact ⟨e, he, by simp [hRe, hm]⟩

/-- C7: result order and multiplicity of `create_alerts`.  When every active
id is known to the registry, the returned alerts are exactly the
concatenation, in active insertion order, of each event's matches in
requested-type order (so an id present twice contributes its matching alerts
twice, and nothing is re-sorted by severity); and every emitted alert carries
the diagnostic tag `name(e)/t` and event-type field `t` of the pair that
produced it. -/
theorem create_alerts_order_and_tags {C : Type} (nm : Nat → String) (dt : ℚ)
    (R : Registry C) (s : Events) (ets : List ET) (cargs : C)
    (h : ∀ e ∈ s.events, (R e).isSome) :
    (Events.create_alerts nm dt R s ets cargs).map Prod.fst
        = some (s.events.flatMap (emitEvent nm dt cargs s.events_prev ets R)) ∧
      ∀ a ∈ s.events.flatMap (emitEvent nm dt cargs s.events_prev ets R),
        ∃ e, e ∈ s.events ∧ ∃ t, t ∈ ets ∧
          a.alert_type = nm e ++ "/" ++ t.str ∧ a.event_type = some t := by
  constructor
  · obtain ⟨l, R2, heq, hl, -⟩ :=
      createAlertsEvents_spec nm dt cargs s.events_prev ets s.events R R
        (regRel_refl R) h
    unfold Events.create_alerts
    rw [heq, hl]
    rfl
  · intro a ha
    obtain ⟨e, he, hmem⟩ := List.mem_flatMap.mp ha
    obtain ⟨t, ht, h1, h2⟩ := emitEvent_mem hmem
    exact ⟨e, he, t, ht, h1, h2⟩

/-- Witness for C7: event 0 present twice in the active list. -/
theorem create_alerts_order_and_tags_w :
    (∀ e ∈ (sampleState [0, 0]).events, (sampleReg 0 e).isSome) ∧
      ((Events.create_alerts sampleName 1 (sampleReg 0) (sampleState [0, 0])
            [ET.warning] ()).map Prod.fst
          = some ((sampleState [0, 0]).events.flatMap
              (emitEvent sampleName 1 () (sampleState [0, 0]).events_prev
                [ET.warning] (sampleReg 0))) ∧
        ∀ a ∈ (sampleState [0, 0]).events.flatMap
            (emitEvent sampleName 1 () (sampleState [0, 0]).events_prev
              [ET.warning] (sampleReg 0)),
          ∃ e, e ∈ (sampleState [0, 0]).events ∧ ∃ t, t ∈ [ET.warning] ∧
            a.alert_type = sampleName e ++ "/" ++ t.str ∧
            a.event_type = some t) :=
  ⟨by decide,
    create_alerts_order_and_tags sampleName 1 (sampleReg 0)
      (sampleState [0, 0]) [ET.warning] () (by decide)⟩

/-- C8 counterexample: `create_alerts` does modify a field of an Alert held
in the Registry.  Emitting the concrete warning alert of id 0 overwrites the
`alert_type` field of the very Alert stored at that registry slot (lines
82-83 mutate the object fetched from `EVENTS[e][et]`): after the call the
slot holds the stamped alert, whose `alert_type` differs from the stored
original's. -/
theorem create_alerts_mutates_registry_alert :
    (Events.create_alerts sampleName 1 (sampleReg 0) (sampleState [0])
          [ET.warning] ()).map (fun p => regAlertAt p.2 0 ET.warning)
        = some (some ((sampleAlert 0).stamped
            (sampleName 0 ++ "/" ++ ET.warning.str) ET.warning)) ∧
      regAlertAt (sampleReg 0) 0 ET.warning = some (sampleAlert 0) ∧
      ((sampleAlert 0).stamped (sampleName 0 ++ "/" ++ ET.warning.str)
            ET.warning).alert_type ≠ (sampleAlert 0).alert_type := by
  refine ⟨?_, ?_, ?_⟩
  · simp [Events.create_alerts, createAlertsEvents, createAlertsTypes,
      sampleState, sampleReg, sampleRow, regAlertAt, sampleAlert, Alert.make]
  · simp [regAlertAt, sampleReg, sampleRow]
  · show sampleName 0 ++ "/" ++ ET.warning.str ≠ ""
    decide

/-- C8 amended: the only registry modification `create_alerts` performs is
the in-place stamping of emitted concrete alerts.  Whenever the call returns,
the post-call registry is `regRel`-related to the pre-call one: the id and
type structure is unchanged, callback entries are unchanged, and every
concrete Alert is unchanged on all fields except possibly `alert_type` and
`event_type`.  No other engine operation touches the registry (they take it
read-only in the embedding). -/
theorem create_alerts_registry_frame {C : Type} (nm : Nat → String) (dt : ℚ)
    (R : Registry C) (s : Events) (ets : List ET) (cargs : C)
    (l : List Alert) (R2 : Registry C)
    (h : Events.create_alerts nm dt R s ets cargs = some (l, R2)) :
    regRel R R2 :=
  createAlertsEvents_mut nm dt cargs s.events_prev ets s.events R R l R2
    (regRel_refl R) h

/-- Witness for C8: the frame relation holds for a concrete run. -/
theorem create_alerts_registry_frame_w :
    regRel sampleReg2
      ((Events.create_alerts sampleName 1 sampleReg2 (sampleState [1])
          [ET.warning] ()).getD ([], fun _ => none)).2 :=
  create_alerts_registry_frame sampleName 1 sampleReg2 (sampleState [1])
    [ET.warning] () _ _ rfl

/-- C9: for any two Alerts, `a > b` holds iff a's priority is strictly
greater than b's, and the priority comparison is a strict total order over
the six severity levels, ordered LOWEST < LOWER < LOW < MID < HIGH <
HIGHEST. -/
theorem alert_gt_strict_total_order :
    (∀ a b : Alert, Alert.gt a b = true ↔
        Priority.lt b.alert_priority a.alert_priority) ∧
      (∀ p : Priority, ¬ Priority.lt p p) ∧
      (∀ p q r : Priority, Priority.lt p q → Priority.lt q r →
        Priority.lt p r) ∧
      (∀ p q : Priority, Priority.lt p q ∨ p = q ∨ Priority.lt q p) ∧
      Priority.lt .LOWEST .LOWER ∧ Priority.lt .LOWER .LOW ∧
      Priority.lt .LOW .MID ∧ Priority.lt .MID .HIGH ∧
      Priority.lt .HIGH .HIGHEST := by
  refine ⟨?_, ?_, ?_, ?_, ?_, ?_, ?_, ?_, ?_⟩
  · intro a b
    simp [Alert.gt, Priority.lt]
  · intro p
    simp [Priority.lt]
  · intro p q r h1 h2
    exact Nat.lt_trans h1 h2
  · intro p q
    rcases Nat.lt_trichotomy p.toNat q.toNat with h | h | h
    · exact Or.inl h
    · refine Or.inr (Or.inl ?_)
      cases p <;> cases q <;> simp_all [Priority.toNat]
    · exact Or.inr (Or.inr h)
  all_goals decide

/-- Witness for C9: transitivity applied at concrete priorities. -/
theorem alert_gt_strict_total_order_w :
    Priority.lt Priority.LOWEST Priority.HIGH :=
  alert_gt_strict_total_order.2.2.1 Priority.LOWEST Priority.LOW
    Priority.HIGH (by decide) (by decide)

/-- C10: permanent events are irrevocable.  Once `add(e, static := true)` has
been called, no sequence of engine operations removes `e` from the static
list, and immediately after every subsequent `clear()` the active list
contains `e`. -/
theorem permanent_event_survives (s : Events) (e : Nat) (ops : List Op) :
    e ∈ (runOps (Events.add s e true) ops).static_events ∧
      e ∈ (runOps (Events.add s e true) (ops ++ [Op.clear])).events := by
  have h0 : e ∈ (Events.add s e true).static_events := by
    simp [Events.add]
  have h1 : e ∈ (runOps (Events.add s e true) ops).static_events :=
    runOps_static_mono ops _ e h0
  refine ⟨h1, ?_⟩
  rw [runOps_append]
  exact h1
